import Mathlib

/-!
# gh-gpt: chat-completion delivery and model-catalogue translation

A shallow embedding of `pkg/api/chat.go`, `pkg/api/models.go` and
`pkg/server/models.go`.

Conventions of the embedding.

* Go `[]byte` and Go `string` are both finite byte sequences (`Bytes`).
* Go `int`, `int64` are `Int`; no arithmetic is performed on them by the code.
* Go `float64` values are only stored and forwarded; they are carried as their
  64-bit pattern.
* A Go callback `func(x) error` is a closure with side effects.  It is embedded
  as a state transformer `x → σ → σ × Option Error` over an arbitrary state `σ`
  (everything the closure can observe or change); `none` is Go's `nil` error.
  Statements quantify over every `σ` and every callback, so "the callback is
  invoked on `p₁ … pₙ` in this order" reads "the final state is the fold of the
  callback over `[p₁, …, pₙ]`", and "never invoked" reads "the state is
  unchanged".
* Collaborators outside the package (HTTP transport, JSON codec, context,
  clock, token cache) are parameters of the definitions.
-/

namespace GhGpt

/-- Go byte slices and Go strings. -/
abbrev Bytes := List UInt8

/-- The bytes of a string literal of the source (UTF-8, as Go stores it). -/
def str (s : String) : Bytes := s.data.flatMap String.utf8EncodeChar

/-! ## Go standard library: `unicode/utf8`, `unicode`, `bytes` -/

namespace utf8

def RuneError : Nat := 0xFFFD
def RuneSelf : Nat := 0x80
def UTFMax : Nat := 4

/-- The table `first`: information about the first byte of an encoding. -/
def first (b : UInt8) : Nat :=
  let n := b.toNat
  if n < 0x80 then 0xF0            -- as: ASCII
  else if n < 0xC2 then 0xF1       -- xx: invalid
  else if n < 0xE0 then 0x02       -- s1
  else if n = 0xE0 then 0x13       -- s2
  else if n < 0xED then 0x03       -- s3
  else if n = 0xED then 0x23       -- s4
  else if n < 0xF0 then 0x03       -- s3
  else if n = 0xF0 then 0x34       -- s5
  else if n < 0xF4 then 0x04       -- s6
  else if n = 0xF4 then 0x44       -- s7
  else 0xF1                        -- xx

/-- The table `acceptRanges`: bounds on the second byte. -/
def acceptRanges (i : Nat) : Nat × Nat :=
  match i with
  | 0 => (0x80, 0xBF)
  | 1 => (0xA0, 0xBF)
  | 2 => (0x80, 0x9F)
  | 3 => (0x90, 0xBF)
  | _ => (0x80, 0x8F)

/-- Go `utf8.DecodeRune`: the first rune of `p` and its width in bytes. -/
def DecodeRune (p : Bytes) : Nat × Nat :=
  match p with
  | [] => (RuneError, 0)
  | p0 :: _ =>
    let x := first p0
    if x ≥ 0xF0 then
      (if x % 2 = 1 then RuneError else p0.toNat, 1)
    else
      let sz := x &&& 7
      let accept := acceptRanges (x >>> 4)
      if p.length < sz then (RuneError, 1)
      else
        let b1 := (p.getD 1 0).toNat
        if b1 < accept.1 ∨ accept.2 < b1 then (RuneError, 1)
        else if sz ≤ 2 then (((p0.toNat &&& 0x1F) <<< 6) ||| (b1 &&& 0x3F), 2)
        else
          let b2 := (p.getD 2 0).toNat
          if b2 < 0x80 ∨ 0xBF < b2 then (RuneError, 1)
          else if sz ≤ 3 then
            (((p0.toNat &&& 0x0F) <<< 12) ||| ((b1 &&& 0x3F) <<< 6) ||| (b2 &&& 0x3F), 3)
          else
            let b3 := (p.getD 3 0).toNat
            if b3 < 0x80 ∨ 0xBF < b3 then (RuneError, 1)
            else
              (((p0.toNat &&& 0x07) <<< 18) ||| ((b1 &&& 0x3F) <<< 12)
                ||| ((b2 &&& 0x3F) <<< 6) ||| (b3 &&& 0x3F), 4)

/-- Go `utf8.RuneStart`. -/
def RuneStart (b : UInt8) : Bool := b.toNat &&& 0xC0 != 0x80

/-- The backwards search of `DecodeLastRune` for the start of the last rune:
from `start`, at most `steps` positions down to `lim`. -/
def lastRuneStart (p : Bytes) (lim : Nat) : Nat → Nat → Nat
  | 0, start => start
  | steps + 1, start =>
    if start < lim then start
    else if RuneStart (p.getD start 0) then start
    else if start = 0 then 0
    else lastRuneStart p lim steps (start - 1)

/-- Go `utf8.DecodeLastRune`: the last rune of `p` and its width in bytes. -/
def DecodeLastRune (p : Bytes) : Nat × Nat :=
  let end_ := p.length
  if end_ = 0 then (RuneError, 0)
  else
    let r := (p.getD (end_ - 1) 0).toNat
    if r < RuneSelf then (r, 1)
    else if end_ = 1 then
      -- the search loop does not run; start stays at end - 1
      let d := DecodeRune (p.drop (end_ - 1))
      if (end_ - 1) + d.2 ≠ end_ then (RuneError, 1) else d
    else
      let lim := end_ - UTFMax
      let start := lastRuneStart p lim UTFMax (end_ - 2)
      -- leaving the loop below `lim` yields `lim - 1`, or 0 when that is negative
      let start := if start < lim then lim - 1 else start
      let d := DecodeRune ((p.drop start).take (end_ - start))
      if start + d.2 ≠ end_ then (RuneError, 1) else d

end utf8

namespace unicode

/-- Go `unicode.IsSpace`: the Latin-1 fast path, then the `White_Space` table. -/
def IsSpace (r : Nat) : Bool :=
  if r ≤ 0xFF then
    r = 0x09 ∨ r = 0x0A ∨ r = 0x0B ∨ r = 0x0C ∨ r = 0x0D ∨ r = 0x20 ∨ r = 0x85 ∨ r = 0xA0
  else
    r = 0x1680 ∨ (0x2000 ≤ r ∧ r ≤ 0x200A) ∨ r = 0x2028 ∨ r = 0x2029 ∨ r = 0x202F
      ∨ r = 0x205F ∨ r = 0x3000

end unicode

namespace bytes

/-- Go `bytes.HasPrefix`. -/
def HasPrefix (s pre : Bytes) : Bool :=
  decide (pre.length ≤ s.length) && (s.take pre.length == pre)

/-- Go `bytes.Equal`. -/
def Equal (a b : Bytes) : Bool := a == b

/-- Go `bytes.IndexByte`; `none` stands for `-1`. -/
def IndexByte : Bytes → UInt8 → Option Nat
  | [], _ => none
  | b :: bs, c => if b = c then some 0 else (IndexByte bs c).map (· + 1)

/-- The table `asciiSpace`. -/
def asciiSpace (c : UInt8) : Bool :=
  c = 9 ∨ c = 10 ∨ c = 11 ∨ c = 12 ∨ c = 13 ∨ c = 32

/-- Go `bytes.indexFunc`, searching from offset `start`; `fuel` bounds the
number of runes inspected (every rune is at least one byte wide). -/
def indexFunc (s : Bytes) (f : Nat → Bool) (truth : Bool) : Nat → Nat → Option Nat
  | 0, _ => none
  | fuel + 1, start =>
    if start < s.length then
      let c := (s.getD start 0).toNat
      let d := if c ≥ utf8.RuneSelf then utf8.DecodeRune (s.drop start) else (c, 1)
      if f d.1 == truth then some start
      else indexFunc s f truth fuel (start + d.2)
    else none

/-- Go `bytes.lastIndexFunc`, searching downwards from offset `i`. -/
def lastIndexFunc (s : Bytes) (f : Nat → Bool) (truth : Bool) : Nat → Nat → Option Nat
  | 0, _ => none
  | fuel + 1, i =>
    if 0 < i then
      let c := (s.getD (i - 1) 0).toNat
      let d := if c ≥ utf8.RuneSelf then utf8.DecodeLastRune (s.take i) else (c, 1)
      let i := i - d.2
      if f d.1 == truth then some i
      else lastIndexFunc s f truth fuel i
    else none

/-- Go `bytes.TrimLeftFunc`. -/
def TrimLeftFunc (s : Bytes) (f : Nat → Bool) : Bytes :=
  match indexFunc s f false s.length 0 with
  | none => []
  | some i => s.drop i

/-- Go `bytes.TrimRightFunc`. -/
def TrimRightFunc (s : Bytes) (f : Nat → Bool) : Bytes :=
  match lastIndexFunc s f false s.length s.length with
  | some i =>
    if (s.getD i 0).toNat ≥ utf8.RuneSelf then s.take (i + (utf8.DecodeRune (s.drop i)).2)
    else s.take (i + 1)
  | none => s.take 0

/-- Go `bytes.TrimFunc`. -/
def TrimFunc (s : Bytes) (f : Nat → Bool) : Bytes :=
  TrimRightFunc (TrimLeftFunc s f) f

/-- The second loop of `bytes.TrimSpace`, on the reversed slice: strip ASCII
space from the end.  The flag is set when a non-ASCII byte is met, in which case
the Unicode-aware path takes over on what is left. -/
def trimSpaceRight : Bytes → Bool × Bytes
  | [] => (false, [])
  | c :: rest =>
    if c.toNat ≥ utf8.RuneSelf then (true, c :: rest)
    else if asciiSpace c then trimSpaceRight rest
    else (false, c :: rest)

/-- Go `bytes.TrimSpace`: ASCII fast path from both ends, falling back to
`TrimFunc(·, unicode.IsSpace)` on the remaining bytes at the first non-ASCII
byte. -/
def TrimSpace : Bytes → Bytes
  | [] => []
  | c :: rest =>
    if c.toNat ≥ utf8.RuneSelf then TrimFunc (c :: rest) unicode.IsSpace
    else if asciiSpace c then TrimSpace rest
    else
      match trimSpaceRight (c :: rest).reverse with
      | (false, r) => r.reverse
      | (true, r) => TrimFunc r.reverse unicode.IsSpace

end bytes

/-! ## Errors, readers and `bufio.Scanner` -/

/-- Modelled from the spec: the declaration of `statusError` is outside the
given sources.  The struct literals in `stream`, `request` and `Models` fix its
three fields; the spec describes it as carrying the HTTP status code, the status
text and the raw response body. -/
structure statusError where
  StatusCode : Int
  Status : Bytes
  ErrorMessage : Bytes
  deriving DecidableEq, Repr

/-- Go `error` values that occur in the package. -/
inductive Error where
  /-- The package's own `statusError`. -/
  | status (e : statusError)
  /-- The library value `bufio.ErrTooLong`. -/
  | ErrTooLong
  /-- Any other error value (transport, context, codec or callback error),
  identified by its message. -/
  | other (what : Bytes)
  /-- A run-time panic.  It unwinds through the callers; it is carried in the
  error position, where nothing in the package inspects or recovers it. -/
  | panic (what : Bytes)
  deriving DecidableEq, Repr

/-- An `io.Reader` such as a response body: it delivers `data` and then reports
`err` (`none` is `io.EOF`).  `endWithData` tells how the end is reported:
together with the last bytes (as an HTTP body of known length does), or on a
further read that returns no byte. -/
structure Reader where
  data : Bytes
  err : Option Error := none
  endWithData : Bool := false
  deriving DecidableEq, Repr

namespace io

/-- Go `io.ReadAll`: everything read, and the error that ended the reading
(`nil` for `io.EOF`). -/
def ReadAll (r : Reader) : Bytes × Option Error := (r.data, r.err)

end io

namespace bufio

/-- Go `bufio.dropCR`. -/
def dropCR (data : Bytes) : Bytes :=
  if data.getLast? = some 13 then data.dropLast else data

/-- Go `bufio.ScanLines`: the advance and the token (`none` is a nil token, a
request for more data). -/
def ScanLines (data : Bytes) (atEOF : Bool) : Nat × Option Bytes :=
  if atEOF && data.isEmpty then (0, none)
  else
    match bytes.IndexByte data 10 with
    | some i => (i + 1, some (dropCR (data.take i)))
    | none => if atEOF then (data.length, some (dropCR data)) else (0, none)

/-- Go `bufio.MaxScanTokenSize`. -/
def MaxScanTokenSize : Nat := 64 * 1024

/-- A `bufio.Scanner` with the `ScanLines` split function.  `unread` is the
input not yet consumed as tokens (buffered or still in the reader), `readErr`
and `endWithData` are the reader's, `bufLen` is `len(s.buf)` as configured,
`maxTokenSize` the configured limit. -/
structure Scanner where
  unread : Bytes
  readErr : Option Error
  endWithData : Bool
  bufLen : Nat
  maxTokenSize : Nat
  deriving DecidableEq, Repr

/-- Go `bufio.NewScanner`. -/
def NewScanner (r : Reader) : Scanner :=
  { unread := r.data, readErr := r.err, endWithData := r.endWithData,
    bufLen := 0, maxTokenSize := MaxScanTokenSize }

/-- Go `(*Scanner).Buffer(buf, max)`: `s.buf = buf[0:cap(buf)]`, `s.maxTokenSize = max`. -/
def Scanner.Buffer (s : Scanner) (capBuf max : Nat) : Scanner :=
  { s with bufLen := capBuf, maxTokenSize := max }

/-- The most bytes the buffer ever holds: `Scan` doubles a full buffer only
while `len(s.buf) < s.maxTokenSize`, and never beyond `maxTokenSize`.  (The
documentation of `Buffer`: "The maximum token size must be less than the larger
of max and cap(buf).") -/
def Scanner.limit (s : Scanner) : Nat := max s.bufLen s.maxTokenSize

/-- The outcome of one call of `Scan`. -/
inductive Scanned where
  /-- `Scan()` returned true; `Bytes()` is `tok`. -/
  | token (tok : Bytes) (next : Scanner)
  /-- `Scan()` returned false; `Err()` is `err`. -/
  | stop (err : Option Error)
  deriving DecidableEq, Repr

/-- Go `(*Scanner).Scan`, with the refill loop collapsed.  The split function
decides on the unread input as far as the buffer can hold it (`limit` bytes,
counted from the start of the current token, since consumed bytes are shifted
out).  It is told `atEOF` once the reader has reported its end: either on a
further read, which needs a buffer that is not full, or together with the last
bytes, which needs a buffer that holds them all.  When the split function asks
for more data and the buffer is full at its limit, `Scan` fails with
`ErrTooLong`. -/
def Scanner.Scan (s : Scanner) : Scanned :=
  let data := s.unread.take s.limit
  let atEOF := decide (s.unread.length < s.limit)
    || (s.endWithData && decide (s.unread.length ≤ s.limit))
  match ScanLines data atEOF with
  | (advance, some tok) => .token tok { s with unread := s.unread.drop advance }
  | (_, none) => if atEOF then .stop s.readErr else .stop (some .ErrTooLong)

/-- The tokens of successive successful `Scan` calls, up to the first call
that returns false (at most `fuel` of them). -/
def Scanner.tokensAux : Nat → Scanner → List Bytes
  | 0, _ => []
  | fuel + 1, s =>
    match s.Scan with
    | .token tok next => tok :: tokensAux fuel next
    | .stop _ => []

/-- The tokens `for scanner.Scan() { … scanner.Bytes() … }` iterates over.
Every token consumes at least one byte, so `unread.length + 1` calls reach the
call that returns false. -/
def Scanner.tokens (s : Scanner) : List Bytes :=
  Scanner.tokensAux (s.unread.length + 1) s

end bufio

/-- A `context.Context` as far as `stream` looks at it: `Err k` is what
`ctx.Err()` returns at the check of loop iteration `k` (counted from 0). -/
structure Context where
  Err : Nat → Option Error

/-- Go `context.Background()`, never cancelled. -/
def Context.background : Context := { Err := fun _ => none }

/-! ## Package `api`: data model (`chat.go`, `models.go`) -/

namespace api

/-- A Go `float64`, by its bit pattern. -/
structure float64 where
  bits : Nat
  deriving DecidableEq, Repr

structure Message where
  Role : Bytes
  Content : Bytes
  deriving DecidableEq, Repr

structure ChatRequest where
  Model : Bytes
  Messages : List Message
  Stream : Bool
  Temperature : float64
  TopP : float64
  N : Int
  deriving DecidableEq, Repr

structure Usage where
  CompletionTokens : Int
  PromptTokens : Int
  TotalTokens : Int
  deriving DecidableEq, Repr

structure Choice where
  FinishReason : Bytes
  Index : Int
  Message : api.Message
  Delta : api.Message
  deriving DecidableEq, Repr

structure ChatResponse where
  Choices : List Choice
  Created : Int
  ID : Bytes
  Usage : Usage
  deriving DecidableEq, Repr

structure ModelSupports where
  Streaming : Bool
  ToolCalls : Bool
  ParallelToolCalls : Bool
  Vision : Bool
  StructuredOutputs : Bool
  Dimensions : Bool
  deriving DecidableEq, Repr

structure VisionLimits where
  MaxPromptImageSize : Int
  MaxPromptImages : Int
  SupportedMediaTypes : List Bytes
  deriving DecidableEq, Repr

structure ModelCapabilityLimits where
  MaxContextWindowTokens : Int
  MaxOutputTokens : Int
  MaxPromptTokens : Int
  MaxInputs : Int
  Vision : Option VisionLimits
  deriving DecidableEq, Repr

structure ModelCapabilities where
  Family : Bytes
  Object : Bytes
  Type_ : Bytes
  Tokenizer : Bytes
  Supports : ModelSupports
  Limits : ModelCapabilityLimits
  deriving DecidableEq, Repr

structure ModelPolicy where
  State : Bytes
  Terms : Bytes
  deriving DecidableEq, Repr

structure Model where
  ID : Bytes
  Name : Bytes
  Object : Bytes
  Version : Bytes
  Vendor : Bytes
  Preview : Bool
  ModelPickerEnabled : Bool
  Capabilities : ModelCapabilities
  Policy : Option ModelPolicy
  deriving DecidableEq, Repr

structure ModelsResponse where
  Data : List Model
  Object : Bytes
  deriving DecidableEq, Repr

/-! ## Package `api`: transport -/

/-- An outbound `*http.Request`; `ctx` is the context it was built with, which
governs the whole exchange, the reading of the response body included. -/
structure Request where
  ctx : Context
  Method : Bytes
  URL : Bytes
  Header : List (Bytes × Bytes)
  Body : Option Bytes

/-- Go `http.Header.Set` on a header map kept as an association list. -/
def Request.setHeader (req : Request) (key value : Bytes) : Request :=
  { req with Header := req.Header.filter (fun kv => kv.1 ≠ key) ++ [(key, value)] }

/-- An `*http.Response` as far as the package reads it. -/
structure Response where
  StatusCode : Int
  Status : Bytes
  Body : Reader
  deriving DecidableEq, Repr

/-- What a `*Client` and the libraries its methods call supply: the HTTP client
`c.client`, `http.NewRequestWithContext`, the JSON codec at the three types it
is used at, and the identity constants of `chatHeaders`, which are declared
outside the given sources.  The answer of `Do`, its body reader included, may
depend on the context the request carries: a transport that honours
cancellation ends the body with the context's error. -/
structure Client where
  Do : Request → Except Error Response
  NewRequestWithContext : Context → Bytes → Bytes → Option Bytes → Except Error Request
  Marshal : ChatRequest → Except Error Bytes
  Unmarshal : Bytes → Except Error ChatResponse
  UnmarshalModels : Bytes → Except Error ModelsResponse
  editorVersion : Bytes
  editorPluginVersion : Bytes
  userAgent : Bytes
  openaiOrg : Bytes
  openaiIntent : Bytes

def defaultCompletionsURI : Bytes := str "https://api.githubcopilot.com/chat/completions"

def defaultModelsURI : Bytes := str "https://api.githubcopilot.com/models"

/-- Go `http.StatusOK`. -/
def StatusOK : Int := 200

/-- The package variable `chatHeaders`. -/
def Client.chatHeaders (c : Client) : List (Bytes × Bytes) :=
  [ (str "Editor-Version", c.editorVersion),
    (str "Editor-Plugin-Version", c.editorPluginVersion),
    (str "User-Agent", c.userAgent),
    (str "Openai-Organization", c.openaiOrg),
    (str "Openai-Intent", c.openaiIntent),
    (str "Content-Type", str "text/event-stream; charset=utf-8") ]

/-- The header part shared by `doGet` and `doPost`. -/
def Client.withHeaders (c : Client) (token : Bytes) (req : Request) : Request :=
  (c.chatHeaders.foldl (fun r kv => r.setHeader kv.1 kv.2) req).setHeader
    (str "Authorization") (str "Bearer " ++ token)

/-- The method `(*Client).doGet`. -/
def Client.doGet (c : Client) (ctx : Context) (token path : Bytes) : Except Error Response :=
  match c.NewRequestWithContext ctx (str "GET") path none with
  | .error err => .error err
  | .ok req => c.Do (c.withHeaders token req)

/-- The method `(*Client).doPost`; `data` is `none` for a nil `data`.  In that
case `buf` stays a nil `*bytes.Buffer`, which is not a nil `io.Reader`:
`http.NewRequestWithContext`, once it has accepted method, context and URL,
calls its `Len` method and the program panics. -/
def Client.doPost (c : Client) (ctx : Context) (token path : Bytes)
    (data : Option ChatRequest) : Except Error Response :=
  match data with
  | none =>
    match c.NewRequestWithContext ctx (str "POST") path none with
    | .error err => .error err
    | .ok _ =>
      .error (.panic (str "runtime error: invalid memory address or nil pointer dereference"))
  | some d =>
    match c.Marshal d with
    | .error err => .error err
    | .ok bts =>
      match c.NewRequestWithContext ctx (str "POST") path (some bts) with
      | .error err => .error err
      | .ok req => c.Do (c.withHeaders token req)

/-- The `statusError` built from a response whose status is not 200
(`body, _ := io.ReadAll(response.Body)`: a read error is dropped). -/
def Response.statusError (response : Response) : statusError :=
  { StatusCode := response.StatusCode
    Status := response.Status
    ErrorMessage := (io.ReadAll response.Body).1 }

/-! ## Package `api`: streamed and buffered delivery (`chat.go`) -/

/-- The body of the loop `for scanner.Scan() { … }` of `stream`, over the
tokens the scanner yields; `k` counts the iterations. -/
def streamLoop {σ : Type} (ctx : Context) (fn : Bytes → σ → σ × Option Error) :
    Nat → List Bytes → σ → σ × Option Error
  | _, [], s => (s, none)
  | k, bts :: rest, s =>
    match ctx.Err k with
    | some err => (s, some err)
    | none =>
      if !bytes.HasPrefix bts (str "data:") then streamLoop ctx fn (k + 1) rest s
      else
        let bts := bytes.TrimSpace (bts.drop 5)
        if bytes.Equal bts (str "[DONE]") then (s, none)
        else
          match fn bts s with
          | (s, some err) => (s, some err)
          | (s, none) => streamLoop ctx fn (k + 1) rest s

/-- The method `(*Client).stream`. -/
def Client.stream {σ : Type} (c : Client) (ctx : Context) (token path : Bytes)
    (data : Option ChatRequest) (fn : Bytes → σ → σ × Option Error) (s : σ) :
    σ × Option Error :=
  match c.doPost ctx token path data with
  | .error err => (s, some err)
  | .ok response =>
    if response.StatusCode ≠ StatusOK then
      (s, some (.status response.statusError))
    else
      let scanner := (bufio.NewScanner response.Body).Buffer 4096 4096
      streamLoop ctx fn 0 scanner.tokens s

/-- The method `(*Client).request`. -/
def Client.request {σ : Type} (c : Client) (ctx : Context) (token path : Bytes)
    (data : Option ChatRequest) (fn : Bytes → σ → σ × Option Error) (s : σ) :
    σ × Option Error :=
  match c.doPost ctx token path data with
  | .error err => (s, some err)
  | .ok response =>
    if response.StatusCode ≠ StatusOK then
      (s, some (.status response.statusError))
    else
      match io.ReadAll response.Body with
      | (_, some err) => (s, some err)
      | (body, none) =>
        match fn body s with
        | (s, some err) => (s, some err)
        | (s, none) => (s, none)

/-- The closure `f` of `ChatCompletions`: decode one chunk, then call `fn`. -/
def Client.decodeThen {σ : Type} (c : Client) (fn : ChatResponse → σ → σ × Option Error) :
    Bytes → σ → σ × Option Error :=
  fun bts s =>
    match c.Unmarshal bts with
    | .error err => (s, some err)
    | .ok chatResponse => fn chatResponse s

/-- The method `(*Client).ChatCompletions`.  `chatRequest` is passed by pointer
and written to, so the result carries its final value next to the callback state
and the returned error. -/
def Client.ChatCompletions {σ : Type} (c : Client) (ctx : Context) (token : Bytes)
    (chatRequest : ChatRequest) (fn : ChatResponse → σ → σ × Option Error) (s : σ) :
    ChatRequest × σ × Option Error :=
  let f := c.decodeThen fn
  let chatRequest := if chatRequest.N = 0 then { chatRequest with N := 1 } else chatRequest
  if chatRequest.Stream then
    (chatRequest, c.stream ctx token defaultCompletionsURI (some chatRequest) f s)
  else
    (chatRequest, c.request ctx token defaultCompletionsURI (some chatRequest) f s)

/-- The method `(*Client).Models` of `api/models.go` (its two `fmt.Println`
calls write to standard output only). -/
def Client.Models (c : Client) (ctx : Context) (token : Bytes) :
    Except Error (List Model) :=
  match c.doGet ctx token defaultModelsURI with
  | .error err => .error err
  | .ok response =>
    if response.StatusCode ≠ StatusOK then
      .error (.status response.statusError)
    else
      match io.ReadAll response.Body with
      | (_, some err) => .error err
      | (bytes, none) =>
        match c.UnmarshalModels bytes with
        | .error err => .error err
        | .ok models => .ok models.Data

end api

/-! ## Package `server`: the models endpoint (`server/models.go`) -/

namespace strings

/-- Go `strings.TrimPrefix`. -/
def TrimPrefix (s pre : Bytes) : Bytes :=
  if bytes.HasPrefix s pre then s.drop pre.length else s

end strings

namespace server

/-- The struct `Permission`; `Group` is an `interface{}`, `none` its nil. -/
structure Permission where
  CreatedAt : Int := 0
  ID : Bytes := []
  Object : Bytes := []
  AllowCreateEngine : Bool := false
  AllowSampling : Bool := false
  AllowLogprobs : Bool := false
  AllowSearchIndices : Bool := false
  AllowView : Bool := false
  AllowFineTuning : Bool := false
  Organization : Bytes := []
  Group : Option Bytes := none
  IsBlocking : Bool := false
  deriving DecidableEq, Repr

/-- The struct `Model` of the OpenAI-compatible listing. -/
structure Model where
  CreatedAt : Int
  ID : Bytes
  Object : Bytes
  OwnedBy : Bytes
  Permission : List Permission
  Root : Bytes
  Parent : Bytes
  deriving DecidableEq, Repr

structure ModelsResponse where
  Models : List Model
  deriving DecidableEq, Repr

/-- The inbound `*http.Request` as far as the handler reads it:
`r.Method` and `r.Header.Get("Authorization")`. -/
structure HttpRequest where
  Method : Bytes
  Authorization : Bytes
  deriving DecidableEq, Repr

/-- What the handler does to the outside, in order: calls of collaborators and
writes to the `http.ResponseWriter`. -/
inductive Event where
  /-- The call `s.auth.GetToken(ctx)`. -/
  | GetToken
  /-- The call `s.client.TokenWishCache(ctx, oauthToken)`. -/
  | TokenWishCache (oauthToken : Bytes)
  /-- The call `s.client.Models(ctx, token)`. -/
  | Models (token : Bytes)
  /-- An error response: HTTP status `code`, JSON error body carrying `msg`. -/
  | jsonError (code : Int) (msg : Bytes)
  /-- The call `w.Header().Set(key, value)`. -/
  | HeaderSet (key value : Bytes)
  /-- The call `w.WriteHeader(code)`. -/
  | WriteHeader (code : Int)
  /-- The call `json.NewEncoder(w).Encode(v)`: the model list is written. -/
  | Encode (v : ModelsResponse)
  deriving DecidableEq, Repr

/-- Modelled from the spec: the helper `respJSONError` is declared outside the
given sources.  The spec says of its two uses that they yield the given HTTP
status "with a JSON error body" that contains the message text; it is kept as
one response event with exactly these two data. -/
def respJSONError (code : Int) (msg : Bytes) : List Event := [Event.jsonError code msg]

/-- Go `http.StatusMethodNotAllowed`. -/
def StatusMethodNotAllowed : Int := 405

/-- Go `http.StatusInternalServerError`. -/
def StatusInternalServerError : Int := 500

/-- Go `http.StatusOK`. -/
def StatusOK : Int := 200

/-- The token source `s.auth`, over an arbitrary type `ε` of error values. -/
structure Auth (ε : Type) where
  GetToken : Except ε Bytes

/-- The backend client `s.client` as the handler uses it. -/
structure Backend (ε : Type) where
  TokenWishCache : Bytes → Except ε Bytes
  Models : Bytes → Except ε (List api.Model)

/-- A `*Server` and what its handler calls besides: the clock (`Now k` is
`time.Now().Unix()` at its `k`-th call), the method `Error()` of error values,
and the outcome of writing the encoded list to the connection. -/
structure Server (ε : Type) where
  auth : Auth ε
  client : Backend ε
  Now : Nat → Int
  ErrorText : ε → Bytes
  Encode : ModelsResponse → Option ε

/-- The element the loop of `Models` appends for one backend model. -/
def translateModel (createdAt : Int) (model : api.Model) : Model :=
  { CreatedAt := createdAt
    ID := model.ID
    Object := model.Object
    OwnedBy := model.Vendor
    Permission :=
      [ { AllowCreateEngine := model.ModelPickerEnabled
          AllowSampling := model.ModelPickerEnabled
          AllowLogprobs := model.ModelPickerEnabled } ]
    Root := model.ID
    Parent := model.ID }

/-- The loop `for _, model := range models { … append … }` of `Models`: the
clock is read once per element, for the `k`-th time at element `k`. -/
def translateModels (now : Nat → Int) (models : List api.Model) : ModelsResponse :=
  models.foldl
    (fun modelsResponse model =>
      { Models := modelsResponse.Models ++
          [translateModel (now modelsResponse.Models.length) model] })
    { Models := [] }

/-- The handler `(*Server).Models`. -/
def Server.Models {ε : Type} (sv : Server ε) (r : HttpRequest) : List Event :=
  if r.Method ≠ str "GET" then
    respJSONError StatusMethodNotAllowed (str "Method not allowed")
  else
    let oauthToken := strings.TrimPrefix r.Authorization (str "Bearer ")
    let got : List Event × Except ε Bytes :=
      if oauthToken = [] then ([Event.GetToken], sv.auth.GetToken) else ([], .ok oauthToken)
    match got with
    | (ev, .error err) => ev ++ respJSONError StatusInternalServerError (sv.ErrorText err)
    | (ev, .ok oauthToken) =>
      let ev := ev ++ [Event.TokenWishCache oauthToken]
      match sv.client.TokenWishCache oauthToken with
      | .error err => ev ++ respJSONError StatusInternalServerError (sv.ErrorText err)
      | .ok token =>
        let ev := ev ++ [Event.Models token]
        match sv.client.Models token with
        | .error err => ev ++ respJSONError StatusInternalServerError (sv.ErrorText err)
        | .ok models =>
          let modelsResponse := translateModels sv.Now models
          let ev := ev ++
            [ Event.HeaderSet (str "Content-Type") (str "application/json"),
              Event.WriteHeader StatusOK,
              Event.Encode modelsResponse ]
          match sv.Encode modelsResponse with
          | some err => ev ++ respJSONError StatusInternalServerError (sv.ErrorText err)
          | none => ev

end server

/-! ## The spec's reading of a streamed body

Definitions that follow the words of the spec (§4.1, §4.2, §8), to be compared
with `streamLoop`. -/

namespace Spec

/-- A body given as lines: every line is followed by a line feed.  (A carriage
return before the line feed is the last byte of the line as written here.) -/
def joinLines (ls : List Bytes) : Bytes := ls.flatMap (fun l => l ++ [10])

/-- The content of a line: the line without the carriage return of a
`\r\n` terminator. -/
def content (l : Bytes) : Bytes :=
  if l.getLast? = some 13 then l.dropLast else l

/-- "Lines beginning with the literal prefix `data:`". -/
def isData (l : Bytes) : Bool := decide (str "data:" <+: l)

/-- "The prefix is stripped and surrounding whitespace trimmed." -/
def payload (l : Bytes) : Bytes := bytes.TrimSpace (l.drop (str "data:").length)

/-- "A line whose remaining content is exactly `[DONE]`". -/
def isDone (p : Bytes) : Bool := decide (p = str "[DONE]")

/-- The frames of a sequence of line contents: the payloads of the `data:`
lines that precede the first `[DONE]` line, in input order. -/
def frames (ls : List Bytes) : List Bytes :=
  ((ls.filter isData).map payload).takeWhile (fun p => !isDone p)

/-- "Stop on first error": the frames are handed to the callback one by one, in
order; the first error ends the delivery and is the result. -/
def deliver {σ : Type} (f : Bytes → σ → σ × Option Error) : List Bytes → σ → σ × Option Error
  | [], s => (s, none)
  | p :: ps, s =>
    match f p s with
    | (s, some err) => (s, some err)
    | (s, none) => deliver f ps s

/-- A callback that only records its arguments, in order of invocation, and
never fails. -/
def record {α : Type} : α → List α → List α × Option Error :=
  fun x log => (log ++ [x], none)

end Spec

/-! ## Concrete collaborators and inputs -/

namespace Fixture

/-- A decoder standing in for `json.Unmarshal`: it accepts `{…}` and takes the
text between the braces as the response id; anything else is a syntax error. -/
def unmarshal (bts : Bytes) : Except Error api.ChatResponse :=
  if bts.head? = some 123 ∧ bts.getLast? = some 125 then
    .ok { Choices := [], Created := 0, ID := (bts.drop 1).dropLast, Usage := ⟨0, 0, 0⟩ }
  else .error (.other (str "invalid character"))

/-- A client whose transport answers every request with `answer`. -/
def client (answer : Except Error api.Response) : api.Client :=
  { Do := fun _ => answer
    NewRequestWithContext := fun ctx method url body =>
      .ok { ctx := ctx, Method := method, URL := url, Header := [], Body := body }
    Marshal := fun _ => .ok (str "{}")
    Unmarshal := unmarshal
    UnmarshalModels := fun _ => .ok { Data := [], Object := [] }
    editorVersion := str "vscode/1.85.1"
    editorPluginVersion := str "copilot/1.155.0"
    userAgent := str "GithubCopilot/1.155.0"
    openaiOrg := str "github-copilot"
    openaiIntent := str "conversation-panel" }

/-- A 200 response with the given body. -/
def ok200 (body : Bytes) : api.Response :=
  { StatusCode := 200, Status := str "200 OK", Body := { data := body } }

/-- The error of a cancelled context. -/
def canceled : Error := .other (str "context canceled")

/-- A 200 response whose body delivers `body` and then fails with the error of
the cancelled context: the pending read was aborted. -/
def aborted (body : Bytes) : api.Response :=
  { StatusCode := 200, Status := str "200 OK",
    Body := { data := body, err := some canceled } }

/-- A 429 response. -/
def tooMany : api.Response :=
  { StatusCode := 429, Status := str "429 Too Many Requests",
    Body := { data := str "rate limit exceeded" } }

/-- A chat request with `N` left at zero. -/
def chatRequest (stream : Bool) : api.ChatRequest :=
  { Model := str "gpt-4o", Messages := [⟨str "user", str "hi"⟩], Stream := stream,
    Temperature := ⟨0⟩, TopP := ⟨0⟩, N := 0 }

/-- A context that is cancelled from loop iteration `n` on. -/
def cancelledFrom (n : Nat) : Context :=
  { Err := fun k => if k < n then none else some canceled }

/-- A comment line with `n` bytes of text. -/
def comment (n : Nat) : Bytes := str ": " ++ List.replicate n 120

/-- A `data:` line with a payload of `n` bytes. -/
def dataLine (n : Nat) : Bytes := str "data: " ++ List.replicate n 120

/-- A comment line of 4098 bytes. -/
def longComment : Bytes := comment 4096

/-- A `data:` line of 4102 bytes, with a payload of 4096 bytes. -/
def longData : Bytes := dataLine 4096

/-- A backend model with the given "model picker enabled" flag. -/
def model (id : Bytes) (picker : Bool) : api.Model :=
  { ID := id, Name := str "GPT 4o", Object := str "model", Version := str "2024-05-13",
    Vendor := str "Azure OpenAI", Preview := false, ModelPickerEnabled := picker,
    Capabilities :=
      { Family := str "gpt-4o", Object := str "model_capabilities", Type_ := str "chat",
        Tokenizer := str "o200k_base",
        Supports := ⟨true, true, true, false, false, false⟩,
        Limits := ⟨128000, 4096, 64000, 0, none⟩ },
    Policy := none }

/-- A server over collaborators with fixed answers; an error value is its own
message; the clock stands at 1700000000; writing to the connection succeeds. -/
def server (getToken : Except Bytes Bytes) (wish : Except Bytes Bytes)
    (models : Except Bytes (List api.Model)) : server.Server Bytes :=
  { auth := { GetToken := getToken }
    client := { TokenWishCache := fun _ => wish, Models := fun _ => models }
    Now := fun _ => 1700000000
    ErrorText := fun e => e
    Encode := fun _ => none }

end Fixture

end GhGpt

/-! ## Theorems -/

namespace GhGpt

open bufio

/-! ### The scanner -/

theorem IndexByte_append_cons (l rest : Bytes) (c : UInt8) (h : c ∉ l) :
    bytes.IndexByte (l ++ c :: rest) c = some l.length := by
  induction l with
  | nil => simp [bytes.IndexByte]
  | cons b bs ih =>
    have hb : b ≠ c := fun h' => h (by simp [h'])
    have hbs : c ∉ bs := fun h' => h (by simp [h'])
    simp [bytes.IndexByte, hb, ih hbs]

theorem IndexByte_eq_none (l : Bytes) (c : UInt8) (h : c ∉ l) :
    bytes.IndexByte l c = none := by
  induction l with
  | nil => simp [bytes.IndexByte]
  | cons b bs ih =>
    have hb : b ≠ c := fun h' => h (by simp [h'])
    have hbs : c ∉ bs := fun h' => h (by simp [h'])
    simp [bytes.IndexByte, hb, ih hbs]

theorem Scan_line (s : Scanner) (l rest : Bytes) (hu : s.unread = l ++ 10 :: rest)
    (hnl : (10 : UInt8) ∉ l) (hlen : l.length < s.limit) :
    s.Scan = .token (dropCR l) { s with unread := rest } := by
  have htake : (l ++ 10 :: rest).take s.limit
      = l ++ 10 :: rest.take (s.limit - l.length - 1) := by
    rw [List.take_append_eq_append_take, List.take_of_length_le (Nat.le_of_lt hlen)]
    congr 1
    obtain ⟨d, hd⟩ : ∃ d, s.limit - l.length = d + 1 := ⟨s.limit - l.length - 1, by omega⟩
    rw [hd, List.take_succ_cons]
    simp
  have hdrop : (l ++ 10 :: rest).drop (l.length + 1) = rest := by
    rw [List.drop_append_eq_append_drop, List.drop_of_length_le (by omega)]
    simp
  have hnot : ¬(l ++ 10 :: rest.take (s.limit - l.length - 1) = []) := by simp
  simp [Scanner.Scan, ScanLines, hu, htake, IndexByte_append_cons _ _ _ hnl, hdrop]

theorem Scan_tooLong (s : Scanner) (hlen : s.limit < s.unread.length)
    (hnl : (10 : UInt8) ∉ s.unread.take s.limit) :
    s.Scan = .stop (some .ErrTooLong) := by
  have h1 : ¬ (s.unread.length < s.limit) := by omega
  have h2 : ¬ (s.unread.length ≤ s.limit) := by omega
  simp [Scanner.Scan, ScanLines, h1, h2, IndexByte_eq_none _ _ hnl]

theorem IndexByte_lt (l : Bytes) (c : UInt8) (i : Nat) (h : bytes.IndexByte l c = some i) :
    i < l.length := by
  induction l generalizing i with
  | nil => simp [bytes.IndexByte] at h
  | cons b bs ih =>
    by_cases hb : b = c
    · simp [bytes.IndexByte, hb] at h
      subst h
      simp
    · simp [bytes.IndexByte, hb] at h
      obtain ⟨j, hj, rfl⟩ := h
      have := ih j hj
      simp
      omega

theorem ScanLines_advance (data : Bytes) (atEOF : Bool) (advance : Nat) (tok : Bytes)
    (h : ScanLines data atEOF = (advance, some tok)) :
    0 < advance ∧ advance ≤ data.length := by
  unfold ScanLines at h
  cases hi : bytes.IndexByte data 10 with
  | some i =>
    have hlt := IndexByte_lt data 10 i hi
    have hne : data ≠ [] := by
      intro h'
      simp [h'] at hlt
    cases atEOF <;> simp [hi, hne] at h <;> omega
  | none =>
    by_cases hne : data = []
    · subst hne
      cases atEOF <;> simp [bytes.IndexByte] at h
    · have hpos : 0 < data.length := List.length_pos.mpr hne
      cases atEOF <;> simp [hi, hne] at h
      omega

theorem Scan_token_next (s : Scanner) (tok : Bytes) (next : Scanner)
    (h : s.Scan = .token tok next) :
    next.unread.length < s.unread.length ∧ next.limit = s.limit := by
  unfold Scanner.Scan at h
  simp only at h
  generalize hb : (decide (s.unread.length < s.limit)
    || (s.endWithData && decide (s.unread.length ≤ s.limit))) = b at h
  rcases hsl : ScanLines (s.unread.take s.limit) b with ⟨advance, _ | tok'⟩
  · rw [hsl] at h
    cases b <;> simp at h
  · rw [hsl] at h
    simp only [Scanned.token.injEq] at h
    obtain ⟨-, rfl⟩ := h
    obtain ⟨h1, h2⟩ := ScanLines_advance _ _ _ _ hsl
    have h3 : (s.unread.take s.limit).length ≤ s.unread.length := by
      rw [List.length_take]
      omega
    have h4 : 0 < s.unread.length := by omega
    refine ⟨?_, rfl⟩
    show (s.unread.drop advance).length < s.unread.length
    rw [List.length_drop]
    omega

theorem tokensAux_fuel (fuel₁ fuel₂ : Nat) (s : Scanner)
    (h₁ : s.unread.length < fuel₁) (h₂ : s.unread.length < fuel₂) :
    Scanner.tokensAux fuel₁ s = Scanner.tokensAux fuel₂ s := by
  induction fuel₁ generalizing fuel₂ s with
  | zero => omega
  | succ n ih =>
    cases fuel₂ with
    | zero => omega
    | succ m =>
      simp only [Scanner.tokensAux]
      cases hs : s.Scan with
      | stop err => rfl
      | token tok next =>
        have := (Scan_token_next s tok next hs).1
        simp only
        rw [ih m next (by omega) (by omega)]

theorem tokens_unfold (s : Scanner) :
    s.tokens = match s.Scan with
      | .token tok next => tok :: next.tokens
      | .stop _ => [] := by
  have hdef : s.tokens = Scanner.tokensAux (s.unread.length + 1) s := rfl
  rw [hdef, Scanner.tokensAux]
  cases hs : s.Scan with
  | stop err => rfl
  | token tok next =>
    have := (Scan_token_next s tok next hs).1
    simp only
    congr 1
    exact tokensAux_fuel s.unread.length (next.unread.length + 1) next (by omega) (by omega)

/-! ### Tokens of a body given as lines -/

theorem tokens_joinLines_append (s : Scanner) (ls : List Bytes) (rest : Bytes)
    (hu : s.unread = Spec.joinLines ls ++ rest)
    (hls : ∀ l ∈ ls, (10 : UInt8) ∉ l ∧ l.length < s.limit) :
    s.tokens = ls.map dropCR ++ ({ s with unread := rest } : Scanner).tokens := by
  induction ls generalizing s with
  | nil =>
    have : s = { s with unread := rest } := by
      cases s
      simp_all [Spec.joinLines]
    simp
    rw [← this]
  | cons l ls ih =>
    have hl := hls l (by simp)
    have hu' : s.unread = l ++ 10 :: (Spec.joinLines ls ++ rest) := by
      simp [hu, Spec.joinLines]
    rw [tokens_unfold, Scan_line s l _ hu' hl.1 hl.2]
    simp only [List.map_cons, List.cons_append]
    congr 1
    have := ih { s with unread := Spec.joinLines ls ++ rest } rfl
      (fun l' hl' => hls l' (by simp [hl']))
    simpa using this

theorem tokens_tooLong (s : Scanner) (hlen : s.limit < s.unread.length)
    (hnl : (10 : UInt8) ∉ s.unread.take s.limit) : s.tokens = [] := by
  rw [tokens_unfold, Scan_tooLong s hlen hnl]

/-! ### The loop of `stream` against the spec's delivery -/

theorem isData_eq (l : Bytes) : bytes.HasPrefix l (str "data:") = Spec.isData l := by
  unfold bytes.HasPrefix Spec.isData
  by_cases h : str "data:" <+: l
  · have h1 := List.prefix_iff_eq_take.mp h
    have h2 := h.length_le
    simp [h, h2, ← h1]
  · simp only [h, decide_False]
    by_cases h2 : (str "data:").length ≤ l.length
    · have : ¬ (List.take (str "data:").length l = str "data:") := by
        intro h3
        exact h (List.prefix_iff_eq_take.mpr h3.symm)
      simp [h2, this]
    · simp [h2]

theorem frames_cons (t : Bytes) (ts : List Bytes) :
    Spec.frames (t :: ts) =
      if Spec.isData t then
        (if Spec.isDone (Spec.payload t) then [] else Spec.payload t :: Spec.frames ts)
      else Spec.frames ts := by
  unfold Spec.frames
  by_cases h : Spec.isData t
  · by_cases h2 : Spec.isDone (Spec.payload t)
    · simp [h, h2, List.takeWhile]
    · simp [h, h2, List.takeWhile]
  · simp [h]

theorem streamLoop_cons_of_none {σ : Type} (ctx : Context) (fn : Bytes → σ → σ × Option Error)
    (k : Nat) (t : Bytes) (ts : List Bytes) (s : σ) (hctx : ctx.Err k = none) :
    api.streamLoop ctx fn k (t :: ts) s =
      if Spec.isData t then
        (if Spec.isDone (Spec.payload t) then (s, none)
         else match fn (Spec.payload t) s with
          | (s, some err) => (s, some err)
          | (s, none) => api.streamLoop ctx fn (k + 1) ts s)
      else api.streamLoop ctx fn (k + 1) ts s := by
  have hp : Spec.payload t = bytes.TrimSpace (List.drop 5 t) := by
    have h5 : (str "data:").length = 5 := by decide
    simp [Spec.payload, h5]
  have hd : bytes.Equal (bytes.TrimSpace (List.drop 5 t)) (str "[DONE]")
      = Spec.isDone (bytes.TrimSpace (List.drop 5 t)) := by
    rw [Bool.eq_iff_iff]
    simp [Spec.isDone, bytes.Equal]
  rw [api.streamLoop]
  simp only [hctx, isData_eq, hp, hd]
  by_cases h : Spec.isData t
  · simp [h]
  · simp [h]

theorem streamLoop_eq_deliver {σ : Type} (ctx : Context) (fn : Bytes → σ → σ × Option Error)
    (toks : List Bytes) (k : Nat) (s : σ)
    (hctx : ∀ j, j < toks.length → ctx.Err (k + j) = none) :
    api.streamLoop ctx fn k toks s = Spec.deliver fn (Spec.frames toks) s := by
  induction toks generalizing k s with
  | nil => simp [api.streamLoop, Spec.frames, Spec.deliver]
  | cons t ts ih =>
    have h0 : ctx.Err k = none := by simpa using hctx 0 (by simp)
    have hrest : ∀ s, api.streamLoop ctx fn (k + 1) ts s = Spec.deliver fn (Spec.frames ts) s := by
      intro s
      apply ih
      intro j hj
      have := hctx (j + 1) (by simpa using hj)
      rw [← this]
      congr 1
      omega
    rw [streamLoop_cons_of_none ctx fn k t ts s h0, frames_cons]
    by_cases h : Spec.isData t
    · by_cases h2 : Spec.isDone (Spec.payload t)
      · simp [h, h2, Spec.deliver]
      · simp only [h, h2, if_true, Bool.false_eq_true, if_false, Spec.deliver]
        rcases hf : fn (Spec.payload t) s with ⟨s1, _ | e⟩
        · simp [hrest]
        · simp
    · simp [h, hrest]

theorem deliver_append_ok {σ : Type} (f : Bytes → σ → σ × Option Error)
    (F X : List Bytes) (s s₁ : σ) (h : Spec.deliver f F s = (s₁, none)) :
    Spec.deliver f (F ++ X) s = Spec.deliver f X s₁ := by
  induction F generalizing s with
  | nil =>
    simp [Spec.deliver] at h
    simp [h]
  | cons p ps ih =>
    simp only [List.cons_append, Spec.deliver] at h ⊢
    rcases hf : f p s with ⟨s', _ | e'⟩
    · rw [hf] at h
      simp only at h ⊢
      exact ih s' h
    · rw [hf] at h
      simp at h

theorem deliver_of_never_fails {σ : Type} (f : Bytes → σ → σ × Option Error)
    (hf : ∀ p s, (f p s).2 = none) (F : List Bytes) (s : σ) :
    Spec.deliver f F s = (F.foldl (fun s p => (f p s).1) s, none) := by
  induction F generalizing s with
  | nil => simp [Spec.deliver]
  | cons p ps ih =>
    simp only [Spec.deliver, List.foldl_cons]
    have h := hf p s
    rcases hfp : f p s with ⟨s', o⟩
    rw [hfp] at h
    simp only at h
    subst h
    simp [ih]

theorem frames_append_of_done (A B : List Bytes)
    (h : ∃ t ∈ A, Spec.isData t = true ∧ Spec.isDone (Spec.payload t) = true) :
    Spec.frames (A ++ B) = Spec.frames A := by
  induction A with
  | nil => simp at h
  | cons a as ih =>
    simp only [List.cons_append, frames_cons]
    by_cases h1 : Spec.isData a
    · by_cases h2 : Spec.isDone (Spec.payload a)
      · simp [h1, h2]
      · obtain ⟨t, ht, hd1, hd2⟩ := h
        have hta : t ∈ as := by
          rcases List.mem_cons.mp ht with rfl | h'
          · exact absurd hd2 h2
          · exact h'
        simp [h1, h2, ih ⟨t, hta, hd1, hd2⟩]
    · obtain ⟨t, ht, hd1, hd2⟩ := h
      have hta : t ∈ as := by
        rcases List.mem_cons.mp ht with rfl | h'
        · exact absurd hd1 h1
        · exact h'
      simp [h1, ih ⟨t, hta, hd1, hd2⟩]

theorem frames_append_prefix (A B : List Bytes) :
    ∃ X, Spec.frames (A ++ B) = Spec.frames A ++ X := by
  induction A with
  | nil => exact ⟨Spec.frames B, by simp [Spec.frames]⟩
  | cons a as ih =>
    obtain ⟨X, hX⟩ := ih
    simp only [List.cons_append, frames_cons]
    by_cases h1 : Spec.isData a
    · by_cases h2 : Spec.isDone (Spec.payload a)
      · exact ⟨[], by simp [h1, h2]⟩
      · exact ⟨X, by simp [h1, h2, hX]⟩
    · exact ⟨X, by simp [h1, hX]⟩

theorem stream_of_ok {σ : Type} (c : api.Client) (ctx : Context) (token path : Bytes)
    (data : Option api.ChatRequest) (fn : Bytes → σ → σ × Option Error) (s : σ)
    (response : api.Response) (hpost : c.doPost ctx token path data = .ok response)
    (h200 : response.StatusCode = 200) :
    c.stream ctx token path data fn s =
      api.streamLoop ctx fn 0
        ({ unread := response.Body.data, readErr := response.Body.err,
           endWithData := response.Body.endWithData,
           bufLen := 4096, maxTokenSize := 4096 } : Scanner).tokens s := by
  simp [api.Client.stream, hpost, h200, api.StatusOK, NewScanner, Scanner.Buffer]

/-! ### Claims on `chat.go` -/

/-- C1. `ChatCompletions` hands on to the delivery (`stream` when the stream
flag is set, `request` otherwise) the request `sent` that it leaves in the
caller's struct: `sent.N` is 1 when the caller's `N` is 0 and the caller's `N`
otherwise, and every other field is the caller's. -/
theorem ChatCompletions_normalises_N {σ : Type} (c : api.Client) (ctx : Context)
    (token : Bytes) (req : api.ChatRequest)
    (fn : api.ChatResponse → σ → σ × Option Error) (s : σ) :
    ∃ sent : api.ChatRequest,
      c.ChatCompletions ctx token req fn s =
        (sent,
          if sent.Stream then
            c.stream ctx token api.defaultCompletionsURI (some sent) (c.decodeThen fn) s
          else c.request ctx token api.defaultCompletionsURI (some sent) (c.decodeThen fn) s)
      ∧ sent.N = (if req.N = 0 then 1 else req.N)
      ∧ sent.Model = req.Model ∧ sent.Messages = req.Messages ∧ sent.Stream = req.Stream
      ∧ sent.Temperature = req.Temperature ∧ sent.TopP = req.TopP := by
  by_cases h : req.N = 0
  · refine ⟨{ req with N := 1 }, ?_, by simp [h], rfl, rfl, rfl, rfl, rfl⟩
    unfold api.Client.ChatCompletions
    by_cases hs : req.Stream <;> simp [h, hs]
  · refine ⟨req, ?_, by simp [h], rfl, rfl, rfl, rfl, rfl⟩
    unfold api.Client.ChatCompletions
    by_cases hs : req.Stream <;> simp [h, hs]

/-- C3. When the backend answers with a status code other than 200, `stream`
and `request` both return the `statusError` made of the response's status code,
status text and body, and leave the callback's state untouched (the callback is
not invoked), whatever the callback and the context. -/
theorem non200_yields_statusError {σ : Type} (c : api.Client) (ctx : Context)
    (token path : Bytes) (data : Option api.ChatRequest)
    (fn : Bytes → σ → σ × Option Error) (s : σ) (response : api.Response)
    (hpost : c.doPost ctx token path data = .ok response)
    (hcode : response.StatusCode ≠ 200) :
    c.stream ctx token path data fn s =
        (s, some (.status { StatusCode := response.StatusCode, Status := response.Status,
                            ErrorMessage := response.Body.data }))
    ∧ c.request ctx token path data fn s =
        (s, some (.status { StatusCode := response.StatusCode, Status := response.Status,
                            ErrorMessage := response.Body.data })) := by
  constructor
  · simp [api.Client.stream, hpost, api.StatusOK, hcode, api.Response.statusError, io.ReadAll]
  · simp [api.Client.request, hpost, api.StatusOK, hcode, api.Response.statusError, io.ReadAll]

/-- C3 at a 429 response: both deliveries return its `statusError`, the log of the
recording callback stays empty. -/
theorem non200_yields_statusError_witness :
    (Fixture.client (.ok Fixture.tooMany)).stream Context.background (str "tok")
        api.defaultCompletionsURI (some (Fixture.chatRequest true)) Spec.record []
      = ([], some (.status { StatusCode := 429, Status := str "429 Too Many Requests",
                             ErrorMessage := str "rate limit exceeded" }))
    ∧ (Fixture.client (.ok Fixture.tooMany)).request Context.background (str "tok")
        api.defaultCompletionsURI (some (Fixture.chatRequest true)) Spec.record []
      = ([], some (.status { StatusCode := 429, Status := str "429 Too Many Requests",
                             ErrorMessage := str "rate limit exceeded" })) :=
  non200_yields_statusError (Fixture.client (.ok Fixture.tooMany)) Context.background
    (str "tok") api.defaultCompletionsURI (some (Fixture.chatRequest true)) Spec.record []
    Fixture.tooMany rfl (by decide)

/-- C9. For a request with the stream flag unset, a 200 response whose body is
read to its end and parses as a `ChatResponse` makes `ChatCompletions` invoke
the callback once, on the response decoded from the whole body, and return what
the callback returns. -/
theorem ChatCompletions_buffered {σ : Type} (c : api.Client) (ctx : Context)
    (token : Bytes) (req : api.ChatRequest)
    (fn : api.ChatResponse → σ → σ × Option Error) (s : σ)
    (response : api.Response) (r : api.ChatResponse)
    (hflag : req.Stream = false)
    (hpost : c.doPost ctx token api.defaultCompletionsURI
      (some { req with N := if req.N = 0 then 1 else req.N }) = .ok response)
    (h200 : response.StatusCode = 200)
    (hread : response.Body.err = none)
    (hparse : c.Unmarshal response.Body.data = .ok r) :
    (c.ChatCompletions ctx token req fn s).2 = fn r s := by
  have key : ∀ sent : api.ChatRequest,
      c.doPost ctx token api.defaultCompletionsURI (some sent) = .ok response →
      c.request ctx token api.defaultCompletionsURI (some sent) (c.decodeThen fn) s = fn r s := by
    intro sent hp
    simp only [api.Client.request, hp, h200, api.StatusOK, io.ReadAll, hread,
      api.Client.decodeThen, hparse, ne_eq, not_true_eq_false, if_false]
    rcases fn r s with ⟨s', _ | e⟩ <;> rfl
  obtain ⟨model, messages, flag, temperature, topP, n⟩ := req
  simp only at hflag
  subst hflag
  unfold api.Client.ChatCompletions
  by_cases h : n = 0
  · simp only [h, if_true] at hpost ⊢
    simp only [Bool.false_eq_true, if_false]
    exact key _ hpost
  · simp only [h, if_false] at hpost ⊢
    simp only [Bool.false_eq_true, if_false]
    exact key _ hpost

/-- C9 at a 200 response with body `{chatcmpl-1}`. -/
theorem ChatCompletions_buffered_witness :
    ((Fixture.client (.ok (Fixture.ok200 (str "{chatcmpl-1}")))).ChatCompletions
        Context.background (str "tok") (Fixture.chatRequest false) Spec.record []).2
      = Spec.record
          ({ Choices := [], Created := 0, ID := str "chatcmpl-1", Usage := ⟨0, 0, 0⟩ }
            : api.ChatResponse) [] :=
  ChatCompletions_buffered (Fixture.client (.ok (Fixture.ok200 (str "{chatcmpl-1}"))))
    Context.background (str "tok") (Fixture.chatRequest false) Spec.record []
    (Fixture.ok200 (str "{chatcmpl-1}")) _ rfl rfl rfl rfl rfl

/-! ### Streamed delivery over a body given as lines -/

theorem stream_of_lines {σ : Type} (c : api.Client) (ctx : Context) (token path : Bytes)
    (data : Option api.ChatRequest) (fn : Bytes → σ → σ × Option Error) (s : σ)
    (response : api.Response) (ls : List Bytes) (rest : Bytes)
    (hpost : c.doPost ctx token path data = .ok response)
    (h200 : response.StatusCode = 200)
    (hbody : response.Body.data = Spec.joinLines ls ++ rest)
    (hshort : ∀ l ∈ ls, (10 : UInt8) ∉ l ∧ l.length ≤ 4095) :
    c.stream ctx token path data fn s =
      api.streamLoop ctx fn 0
        (ls.map Spec.content ++
          ({ unread := rest, readErr := response.Body.err,
             endWithData := response.Body.endWithData,
             bufLen := 4096, maxTokenSize := 4096 } : Scanner).tokens) s := by
  rw [stream_of_ok c ctx token path data fn s response hpost h200]
  have hmap : ls.map Spec.content = ls.map dropCR := rfl
  rw [hmap, tokens_joinLines_append _ ls rest hbody]
  intro l hl
  have := hshort l hl
  refine ⟨this.1, ?_⟩
  simp only [Scanner.limit, max_self]
  omega

theorem tokens_of_overlong (s : Scanner) (a b : Bytes) (hu : s.unread = a ++ b)
    (hlen : s.limit < a.length) (hc : (10 : UInt8) ∉ a) : s.tokens = [] := by
  apply tokens_tooLong
  · rw [hu, List.length_append]
    omega
  · rw [hu, List.take_append_of_le_length (Nat.le_of_lt hlen)]
    exact fun h => hc (List.mem_of_mem_take h)

theorem getLast?_append_replicate (a : Bytes) (n : Nat) (x : UInt8) :
    (a ++ List.replicate (n + 1) x).getLast? = some x := by
  rw [List.replicate_succ', ← List.append_assoc, List.getLast?_append]
  simp

theorem comment_facts (n : Nat) :
    n < (Fixture.comment n).length ∧ (10 : UInt8) ∉ Fixture.comment n
      ∧ Spec.content (Fixture.comment (n + 1)) = Fixture.comment (n + 1)
      ∧ Spec.isData (Fixture.comment n) = false := by
  have h2 : str ": " = [58, 32] := by decide
  have h5 : str "data:" = [100, 97, 116, 97, 58] := by decide
  refine ⟨?_, ?_, ?_, ?_⟩
  · simp [Fixture.comment, h2]
    omega
  · simp [Fixture.comment, h2, List.mem_replicate]
  · unfold Spec.content Fixture.comment
    rw [getLast?_append_replicate]
    simp
  · simp [Spec.isData, Fixture.comment, h2, h5]

theorem dataLine_facts (n : Nat) :
    n < (Fixture.dataLine n).length ∧ (10 : UInt8) ∉ Fixture.dataLine n
      ∧ Spec.content (Fixture.dataLine (n + 1)) = Fixture.dataLine (n + 1)
      ∧ Spec.isData (Fixture.dataLine n) = true
      ∧ Spec.payload (Fixture.dataLine (n + 1)) = List.replicate (n + 1) 120 := by
  have h6 : str "data: " = [100, 97, 116, 97, 58, 32] := by decide
  have h5 : str "data:" = [100, 97, 116, 97, 58] := by decide
  refine ⟨?_, ?_, ?_, ?_, ?_⟩
  · simp [Fixture.dataLine, h6]
    omega
  · simp [Fixture.dataLine, h6, List.mem_replicate]
  · unfold Spec.content Fixture.dataLine
    rw [getLast?_append_replicate]
    simp
  · simp [Spec.isData, Fixture.dataLine, h6, h5]
  · have hr : (120 :: List.replicate n (120 : UInt8)).reverse
        = 120 :: List.replicate n 120 := by
      rw [← List.replicate_succ, List.reverse_replicate]
    have h1 : ¬ ((120 : UInt8).toNat ≥ utf8.RuneSelf) := by decide
    have h3 : bytes.asciiSpace 120 = false := by decide
    have h4 : bytes.asciiSpace 32 = true := by decide
    have h7 : ¬ ((32 : UInt8).toNat ≥ utf8.RuneSelf) := by decide
    simp only [Spec.payload, Fixture.dataLine, h6, h5, List.length_cons, List.length_nil,
      List.cons_append, List.nil_append, List.drop_succ_cons, List.drop_zero]
    rw [List.replicate_succ, bytes.TrimSpace]
    simp only [h7, h4, if_true, if_false]
    rw [bytes.TrimSpace]
    simp only [h1, h3, if_false, Bool.false_eq_true, hr, bytes.trimSpaceRight]

/-! ### Claims on streamed delivery -/

/-- C2, as stated, fails on a line that the scan buffer cannot hold: for the
body made of a comment line of 4098 bytes, then `data: hi`, then
`data: [DONE]`, with no cancellation and a recording callback, `stream` returns
no error and has invoked the callback on nothing, although the frame `hi`
precedes the `[DONE]` line. -/
theorem stream_misses_frame_after_long_line :
    (Fixture.client (.ok (Fixture.ok200
        (Spec.joinLines [Fixture.longComment, str "data: hi", str "data: [DONE]"])))).stream
      Context.background (str "tok") api.defaultCompletionsURI
      (some (Fixture.chatRequest true)) Spec.record []
      = ([], none)
    ∧ Spec.frames ([Fixture.longComment, str "data: hi", str "data: [DONE]"].map Spec.content)
      = [str "hi"] := by
  constructor
  · rw [stream_of_ok (Fixture.client (.ok (Fixture.ok200
        (Spec.joinLines [Fixture.longComment, str "data: hi", str "data: [DONE]"]))))
      Context.background (str "tok") api.defaultCompletionsURI
      (some (Fixture.chatRequest true)) Spec.record []
      (Fixture.ok200 (Spec.joinLines [Fixture.longComment, str "data: hi", str "data: [DONE]"]))
      rfl rfl]
    rw [tokens_of_overlong _ Fixture.longComment
      (10 :: Spec.joinLines [str "data: hi", str "data: [DONE]"])
      (by simp [Fixture.ok200, Spec.joinLines]) (by
        have : (4096 : Nat) < (Fixture.comment 4096).length := (comment_facts 4096).1
        simpa [Scanner.limit, Fixture.longComment] using this) (comment_facts 4096).2.1]
    rfl
  · have h1 : Spec.content Fixture.longComment = Fixture.longComment :=
      (comment_facts 4095).2.2.1
    have h2 : Spec.isData Fixture.longComment = false := (comment_facts 4096).2.2.2
    have h3 : Spec.frames ([str "data: hi", str "data: [DONE]"].map Spec.content)
        = [str "hi"] := by decide
    simp only [List.map_cons, h1, frames_cons, h2] at h3 ⊢
    simpa using h3

/-- C2, amended: a body made of lines of at most 4095 bytes each. With no
cancellation and a callback that never fails, `stream` on a 200 response whose
body starts with the lines `ls` (each followed by a line feed, a `[DONE]` line
among them) invokes the callback exactly on the frames of `ls`, that is on the
trimmed payloads of the `data:` lines before the first `[DONE]` line, in input
order, and returns no error. -/
theorem stream_delivers_frames {σ : Type} (c : api.Client) (ctx : Context)
    (token path : Bytes) (data : Option api.ChatRequest)
    (fn : Bytes → σ → σ × Option Error) (s : σ)
    (response : api.Response) (ls : List Bytes) (rest : Bytes)
    (hpost : c.doPost ctx token path data = .ok response)
    (h200 : response.StatusCode = 200)
    (hbody : response.Body.data = Spec.joinLines ls ++ rest)
    (hshort : ∀ l ∈ ls, (10 : UInt8) ∉ l ∧ l.length ≤ 4095)
    (hdone : ∃ l ∈ ls, Spec.isData (Spec.content l) = true
      ∧ Spec.isDone (Spec.payload (Spec.content l)) = true)
    (hctx : ∀ k, ctx.Err k = none)
    (hfn : ∀ p s, (fn p s).2 = none) :
    c.stream ctx token path data fn s =
      ((Spec.frames (ls.map Spec.content)).foldl (fun s p => (fn p s).1) s, none) := by
  rw [stream_of_lines c ctx token path data fn s response ls rest hpost h200 hbody hshort]
  rw [streamLoop_eq_deliver ctx fn _ 0 s (fun j _ => hctx _)]
  rw [frames_append_of_done]
  · exact deliver_of_never_fails fn hfn _ s
  · obtain ⟨l, hl, h1, h2⟩ := hdone
    exact ⟨Spec.content l, List.mem_map.mpr ⟨l, hl, rfl⟩, h1, h2⟩

/-- C2 (amended) at a body with a CR LF line, a blank line, a comment, two frames,
`[DONE]` and a line after it. -/
theorem stream_delivers_frames_witness :
    (Fixture.client (.ok (Fixture.ok200
        (str "data: {a}\r\n\n: note\ndata:{b}  \ndata: [DONE]\ndata: {c}\n")))).stream
      Context.background (str "tok") api.defaultCompletionsURI
      (some (Fixture.chatRequest true)) Spec.record []
      = ([str "{a}", str "{b}"], none) :=
  (stream_delivers_frames
    (Fixture.client (.ok (Fixture.ok200
        (str "data: {a}\r\n\n: note\ndata:{b}  \ndata: [DONE]\ndata: {c}\n"))))
    Context.background (str "tok") api.defaultCompletionsURI
      (some (Fixture.chatRequest true)) Spec.record []
    (Fixture.ok200 (str "data: {a}\r\n\n: note\ndata:{b}  \ndata: [DONE]\ndata: {c}\n"))
    [str "data: {a}\r", [], str ": note", str "data:{b}  ", str "data: [DONE]"]
    (str "data: {c}\n")
    rfl rfl (by decide) (by decide) (by decide) (fun _ => rfl) (fun _ _ => rfl)).trans
    (by decide)

theorem not_mem_take_append (a b : Bytes) (n : Nat) (c : UInt8) (hlen : n ≤ a.length)
    (hc : c ∉ a) : c ∉ (a ++ b).take n := by
  rw [List.take_append_of_le_length hlen]
  exact fun h => hc (List.mem_of_mem_take h)

theorem client_doPost (answer : Except Error api.Response) (ctx : Context)
    (token path : Bytes) (d : api.ChatRequest) :
    (Fixture.client answer).doPost ctx token path (some d) = answer := rfl

theorem ChatCompletions_snd {σ : Type} (c : api.Client) (ctx : Context)
    (token : Bytes) (req : api.ChatRequest)
    (fn : api.ChatResponse → σ → σ × Option Error) (s : σ) :
    (c.ChatCompletions ctx token req fn s).2 =
      if req.Stream then
        c.stream ctx token api.defaultCompletionsURI
          (some { req with N := if req.N = 0 then 1 else req.N }) (c.decodeThen fn) s
      else
        c.request ctx token api.defaultCompletionsURI
          (some { req with N := if req.N = 0 then 1 else req.N }) (c.decodeThen fn) s := by
  obtain ⟨model, messages, flag, temperature, topP, n⟩ := req
  unfold api.Client.ChatCompletions
  by_cases h : n = 0 <;> by_cases hs : flag = true <;> simp [h, hs]

/-- C6, as stated, fails on a line that the scan buffer cannot hold, and under
cancellation. For the body made of a comment line of 4098 bytes, then
`data: oops`, then `data: [DONE]`, the first `data:` frame does not parse, yet
the streamed `ChatCompletions` returns no error (and has invoked the callback on
nothing). For the body `data: oops` and a context that is already cancelled, it
returns the context's error, not the parse error. -/
theorem ChatCompletions_returns_nil_after_long_line :
    ((Fixture.client (.ok (Fixture.ok200
        (Spec.joinLines [Fixture.longComment, str "data: oops", str "data: [DONE]"])))).ChatCompletions
      Context.background (str "tok") (Fixture.chatRequest true) Spec.record []).2
      = ([], none)
    ∧ Spec.frames ([Fixture.longComment, str "data: oops", str "data: [DONE]"].map Spec.content)
      = [str "oops"]
    ∧ Fixture.unmarshal (str "oops") = .error (.other (str "invalid character"))
    ∧ ((Fixture.client (.ok (Fixture.ok200 (str "data: oops\n")))).ChatCompletions
        (Fixture.cancelledFrom 0) (str "tok") (Fixture.chatRequest true) Spec.record []).2
      = ([], some Fixture.canceled) := by
  refine ⟨?_, ?_, rfl, by decide⟩
  · rw [ChatCompletions_snd, if_pos (show (Fixture.chatRequest true).Stream = true from rfl)]
    rw [stream_of_ok (Fixture.client _) _ _ _ _ _ _ (Fixture.ok200 _)
      (client_doPost _ _ _ _ _) rfl]
    rw [tokens_of_overlong _ Fixture.longComment
      (10 :: Spec.joinLines [str "data: oops", str "data: [DONE]"])
      (by simp [Fixture.ok200, Spec.joinLines]) (by
        have : (4096 : Nat) < (Fixture.comment 4096).length := (comment_facts 4096).1
        simpa [Scanner.limit, Fixture.longComment] using this) (comment_facts 4096).2.1]
    rfl
  · have h1 : Spec.content Fixture.longComment = Fixture.longComment :=
      (comment_facts 4095).2.2.1
    have h2 : Spec.isData Fixture.longComment = false := (comment_facts 4096).2.2.2
    have h3 : Spec.frames ([str "data: oops", str "data: [DONE]"].map Spec.content)
        = [str "oops"] := by decide
    simp only [List.map_cons, h1, frames_cons, h2] at h3 ⊢
    simpa using h3

/-- C6, amended: a body made of lines of at most 4095 bytes each, and no
cancellation. If in the streamed `ChatCompletions` the frame `p` is the first
one that fails (the frames `F₁` before it were all parsed and accepted by the
callback, leaving the state `s₁`; `p` fails to parse, or parses and the callback
returns an error on it), then `ChatCompletions` returns exactly that error; the
callback has been invoked on the frames of `F₁` and, only when `p` parsed, on
`p`; nothing after `p` is processed. -/
theorem ChatCompletions_stops_on_first_error {σ : Type} (c : api.Client) (ctx : Context)
    (token : Bytes) (req : api.ChatRequest)
    (fn : api.ChatResponse → σ → σ × Option Error) (s s₁ s₂ : σ) (e : Error)
    (response : api.Response) (ls : List Bytes) (rest : Bytes)
    (F₁ F₂ : List Bytes) (p : Bytes)
    (hflag : req.Stream = true)
    (hpost : c.doPost ctx token api.defaultCompletionsURI
      (some { req with N := if req.N = 0 then 1 else req.N }) = .ok response)
    (h200 : response.StatusCode = 200)
    (hbody : response.Body.data = Spec.joinLines ls ++ rest)
    (hshort : ∀ l ∈ ls, (10 : UInt8) ∉ l ∧ l.length ≤ 4095)
    (hctx : ∀ k, ctx.Err k = none)
    (hframes : Spec.frames (ls.map Spec.content) = F₁ ++ p :: F₂)
    (hbefore : Spec.deliver (c.decodeThen fn) F₁ s = (s₁, none))
    (hfail : c.decodeThen fn p s₁ = (s₂, some e)) :
    (c.ChatCompletions ctx token req fn s).2 = (s₂, some e)
    ∧ (∀ err, c.Unmarshal p = .error err → e = err ∧ s₂ = s₁)
    ∧ (∀ r, c.Unmarshal p = .ok r → fn r s₁ = (s₂, some e)) := by
  refine ⟨?_, ?_, ?_⟩
  · have key : ∀ sent : api.ChatRequest,
        c.doPost ctx token api.defaultCompletionsURI (some sent) = .ok response →
        c.stream ctx token api.defaultCompletionsURI (some sent) (c.decodeThen fn) s
          = (s₂, some e) := by
      intro sent hp
      rw [stream_of_lines c ctx token _ _ _ s response ls rest hp h200 hbody hshort]
      rw [streamLoop_eq_deliver ctx _ _ 0 s (fun j _ => hctx _)]
      obtain ⟨X, hX⟩ := frames_append_prefix (ls.map Spec.content)
        ({ unread := rest, readErr := response.Body.err,
           endWithData := response.Body.endWithData,
           bufLen := 4096, maxTokenSize := 4096 } : Scanner).tokens
      rw [hX, hframes, List.append_assoc, deliver_append_ok _ _ _ _ _ hbefore]
      simp only [List.cons_append, Spec.deliver, hfail]
    obtain ⟨model, messages, flag, temperature, topP, n⟩ := req
    simp only at hflag
    subst hflag
    unfold api.Client.ChatCompletions
    by_cases h : n = 0
    · simp only [h, if_true] at hpost ⊢
      exact key _ hpost
    · simp only [h, if_false] at hpost ⊢
      exact key _ hpost
  · intro err herr
    simp only [api.Client.decodeThen, herr, Prod.mk.injEq, Option.some.injEq] at hfail
    exact ⟨hfail.2.symm, hfail.1.symm⟩
  · intro r hr
    simpa only [api.Client.decodeThen, hr] using hfail

/-- C6 (amended) at a body whose second frame does not parse. -/
theorem ChatCompletions_stops_on_first_error_witness :
    ((Fixture.client (.ok (Fixture.ok200
        (str "data: {a}\ndata: oops\ndata: {b}\n")))).ChatCompletions
      Context.background (str "tok") (Fixture.chatRequest true) Spec.record []).2
      = ([({ Choices := [], Created := 0, ID := str "a", Usage := ⟨0, 0, 0⟩ }
            : api.ChatResponse)],
         some (.other (str "invalid character"))) :=
  (ChatCompletions_stops_on_first_error
    (Fixture.client (.ok (Fixture.ok200 (str "data: {a}\ndata: oops\ndata: {b}\n"))))
    Context.background (str "tok") (Fixture.chatRequest true) Spec.record []
    [({ Choices := [], Created := 0, ID := str "a", Usage := ⟨0, 0, 0⟩ } : api.ChatResponse)]
    [({ Choices := [], Created := 0, ID := str "a", Usage := ⟨0, 0, 0⟩ } : api.ChatResponse)]
    (.other (str "invalid character"))
    (Fixture.ok200 (str "data: {a}\ndata: oops\ndata: {b}\n"))
    [str "data: {a}", str "data: oops", str "data: {b}"] []
    [str "{a}"] [str "{b}"] (str "oops")
    rfl rfl rfl (by decide) (by decide) (fun _ => rfl) (by decide) rfl rfl).1

/-- C7. The code at the failing input: the body delivers the frame
`data: {a}`, the context is live at the first loop iteration and cancelled from
the second on, and the pending read of the body is aborted with the context's
error. `scanner.Scan()` then returns false, the loop is left without a further
look at the context, and `stream` returns no error where the claim promises the
context's error. The frame `{a}` has been delivered once and nothing after it. -/
theorem stream_returns_nil_when_read_is_cancelled :
    (Fixture.client (.ok (Fixture.aborted (str "data: {a}\n")))).stream
      (Fixture.cancelledFrom 1) (str "tok") api.defaultCompletionsURI
      (some (Fixture.chatRequest true)) Spec.record []
      = ([str "{a}"], none)
    ∧ (Fixture.cancelledFrom 1).Err 0 = none
    ∧ (Fixture.cancelledFrom 1).Err 1 = some Fixture.canceled
    ∧ (Fixture.aborted (str "data: {a}\n")).Body.err = some Fixture.canceled := by
  refine ⟨?_, rfl, rfl, rfl⟩
  rw [stream_of_ok (Fixture.client _) _ _ _ _ _ _ (Fixture.aborted _)
    (client_doPost _ _ _ _ _) rfl]
  decide

theorem isDone_replicate (n : Nat) : Spec.isDone (List.replicate (n + 1) 120) = false := by
  have hd : str "[DONE]" = [91, 68, 79, 78, 69, 93] := by decide
  rw [List.replicate_succ]
  simp [Spec.isDone, hd]

/-- C10, as stated, fails: the scan buffer of 4096 bytes is also the maximum
token size. For the body made of a `data:` line of 4102 bytes, then `data: y`,
then `data: [DONE]`, with no cancellation and a recording callback, `stream`
returns no error and has invoked the callback on nothing: neither on the long
line's payload nor on the frame `y` after it. -/
theorem stream_drops_long_data_line :
    (Fixture.client (.ok (Fixture.ok200
        (Spec.joinLines [Fixture.longData, str "data: y", str "data: [DONE]"])))).stream
      Context.background (str "tok") api.defaultCompletionsURI
      (some (Fixture.chatRequest true)) Spec.record []
      = ([], none)
    ∧ Spec.frames ([Fixture.longData, str "data: y", str "data: [DONE]"].map Spec.content)
      = [List.replicate 4096 120, str "y"] := by
  constructor
  · rw [stream_of_ok (Fixture.client _) _ _ _ _ _ _ (Fixture.ok200 _)
      (client_doPost _ _ _ _ _) rfl]
    rw [tokens_of_overlong _ Fixture.longData
      (10 :: Spec.joinLines [str "data: y", str "data: [DONE]"])
      (by simp [Fixture.ok200, Spec.joinLines]) (by
        have : (4096 : Nat) < (Fixture.dataLine 4096).length := (dataLine_facts 4096).1
        simpa [Scanner.limit, Fixture.longData] using this) (dataLine_facts 4096).2.1]
    rfl
  · have h1 : Spec.content Fixture.longData = Fixture.longData := (dataLine_facts 4095).2.2.1
    have h2 : Spec.isData Fixture.longData = true := (dataLine_facts 4096).2.2.2.1
    have h3 : Spec.payload Fixture.longData = List.replicate (4095 + 1) 120 :=
      (dataLine_facts 4095).2.2.2.2
    have h4 : Spec.isDone (List.replicate (4095 + 1) 120) = false := isDone_replicate 4095
    have h5 : Spec.frames ([str "data: y", str "data: [DONE]"].map Spec.content)
        = [str "y"] := by decide
    rw [List.map_cons, h1, frames_cons, if_pos h2, h3, h4, h5]
    rfl

/-- C10, amended: the scan buffer does not grow. When the lines `pre`, of at
most 4095 bytes each, are followed by more than 4096 bytes of input `u` whose
first 4096 bytes hold no line feed, the loop of `stream` runs over the lines
`pre` and over nothing else: the callback is invoked exactly as for a body that
ends after `pre` (with no cancellation: on the frames of `pre`), so neither the
over-long line nor anything after it is passed to it. -/
theorem stream_stops_at_overlong_line {σ : Type} (c : api.Client) (ctx : Context)
    (token path : Bytes) (data : Option api.ChatRequest)
    (fn : Bytes → σ → σ × Option Error) (s : σ)
    (response : api.Response) (pre : List Bytes) (u : Bytes)
    (hpost : c.doPost ctx token path data = .ok response)
    (h200 : response.StatusCode = 200)
    (hbody : response.Body.data = Spec.joinLines pre ++ u)
    (hshort : ∀ x ∈ pre, (10 : UInt8) ∉ x ∧ x.length ≤ 4095)
    (hlong : 4096 < u.length)
    (hnl : (10 : UInt8) ∉ u.take 4096) :
    (c.stream ctx token path data fn s).1
      = (api.streamLoop ctx fn 0 (pre.map Spec.content) s).1
    ∧ ((∀ k, ctx.Err k = none) →
        (c.stream ctx token path data fn s).1
          = (Spec.deliver fn (Spec.frames (pre.map Spec.content)) s).1) := by
  have key : c.stream ctx token path data fn s
      = api.streamLoop ctx fn 0 (pre.map Spec.content) s := by
    rw [stream_of_lines c ctx token path data fn s response pre u hpost h200 hbody hshort]
    rw [tokens_tooLong _ (by simp only [Scanner.limit, max_self]; omega)
      (by simpa [Scanner.limit] using hnl)]
    rw [List.append_nil]
  refine ⟨by rw [key], ?_⟩
  intro hctx
  rw [key, streamLoop_eq_deliver ctx fn _ 0 s (fun j _ => hctx _)]

/-- C10 (amended) at a body whose second line has 4102 bytes. -/
theorem stream_stops_at_overlong_line_witness :
    ((Fixture.client (.ok (Fixture.ok200
        (Spec.joinLines [str "data: y"] ++
          (Fixture.longData ++ str "\ndata: z\n"))))).stream
      Context.background (str "tok") api.defaultCompletionsURI
      (some (Fixture.chatRequest true)) Spec.record []).1
      = [str "y"] :=
  ((stream_stops_at_overlong_line
    (Fixture.client (.ok (Fixture.ok200
        (Spec.joinLines [str "data: y"] ++ (Fixture.longData ++ str "\ndata: z\n")))))
    Context.background (str "tok") api.defaultCompletionsURI
      (some (Fixture.chatRequest true)) Spec.record []
    (Fixture.ok200
        (Spec.joinLines [str "data: y"] ++ (Fixture.longData ++ str "\ndata: z\n")))
    [str "data: y"] (Fixture.longData ++ str "\ndata: z\n")
    (client_doPost _ _ _ _ _) rfl rfl (by decide)
    (by
      have h : (4096 : Nat) < (Fixture.dataLine 4096).length := (dataLine_facts 4096).1
      have h2 : Fixture.longData = Fixture.dataLine 4096 := rfl
      have h3 : (str "\ndata: z\n").length = 9 := by decide
      rw [List.length_append, h2, h3]
      omega)
    (not_mem_take_append Fixture.longData (str "\ndata: z\n") 4096 10
      (show 4096 ≤ (Fixture.dataLine 4096).length from Nat.le_of_lt (dataLine_facts 4096).1)
      (show (10 : UInt8) ∉ Fixture.dataLine 4096 from (dataLine_facts 4096).2.1))).2
    (fun _ => rfl)).trans (by decide)

/-! ### Claims on `server/models.go` -/

open server in
theorem translate_foldl (now : Nat → Int) (models : List api.Model) (acc : List server.Model) :
    (models.foldl
      (fun (modelsResponse : ModelsResponse) model =>
        ({ Models := modelsResponse.Models ++
            [translateModel (now modelsResponse.Models.length) model] } : ModelsResponse))
      { Models := acc }).Models
    = acc ++ (models.enum.map (fun im => translateModel (now (acc.length + im.1)) im.2)) := by
  induction models generalizing acc with
  | nil => simp
  | cons m ms ih =>
    rw [List.foldl_cons, ih]
    simp only [List.enum_cons, List.map_cons, List.append_assoc, List.singleton_append,
      Nat.add_zero, List.length_append, List.length_singleton]
    congr 2
    rw [← List.map_fst_add_enum_eq_enumFrom, List.map_map]
    apply List.map_congr_left
    intro im _
    simp only [Function.comp, Prod.map, id]
    congr 2
    omega

open server in
theorem translateModels_eq (now : Nat → Int) (models : List api.Model) :
    (translateModels now models).Models
      = models.enum.map (fun im => translateModel (now im.1) im.2) := by
  unfold translateModels
  rw [translate_foldl]
  simp

open server in
theorem translateModels_getElem? (now : Nat → Int) (models : List api.Model) (i : Nat) :
    (translateModels now models).Models[i]? = (models[i]?).map (translateModel (now i)) := by
  rw [translateModels_eq, List.getElem?_map, List.getElem?_enum]
  cases models[i]? <;> rfl

/-- C4. On a GET request for which the token is obtained, exchanged and the
backend returns the list `models`, the handler writes one model list `resp`:
it has exactly as many entries as `models`, and for every index `i` its `i`-th
entry is the projection of the `i`-th backend model: `ID`, `Root` and `Parent`
are the backend `ID`, `OwnedBy` is the backend `Vendor`, `Object` the backend
`Object`, and it carries exactly one `Permission` record. -/
theorem Models_translates_catalogue {ε : Type} (sv : server.Server ε)
    (r : server.HttpRequest) (oauthToken token : Bytes) (models : List api.Model)
    (hget : r.Method = str "GET")
    (hoauth :
      (strings.TrimPrefix r.Authorization (str "Bearer ") ≠ []
        ∧ oauthToken = strings.TrimPrefix r.Authorization (str "Bearer "))
      ∨ (strings.TrimPrefix r.Authorization (str "Bearer ") = []
        ∧ sv.auth.GetToken = .ok oauthToken))
    (hwish : sv.client.TokenWishCache oauthToken = .ok token)
    (hmodels : sv.client.Models token = .ok models) :
    ∃ resp : server.ModelsResponse,
      server.Event.Encode resp ∈ sv.Models r
      ∧ resp.Models.length = models.length
      ∧ ∀ (i : Nat) (m : api.Model), models[i]? = some m →
          ∃ t : server.Model, resp.Models[i]? = some t
            ∧ t.ID = m.ID ∧ t.Root = m.ID ∧ t.Parent = m.ID
            ∧ t.OwnedBy = m.Vendor ∧ t.Object = m.Object
            ∧ t.Permission.length = 1 := by
  refine ⟨server.translateModels sv.Now models, ?_, ?_, ?_⟩
  · unfold server.Server.Models
    rcases hoauth with ⟨hne, rfl⟩ | ⟨he, hg⟩
    · simp only [hget, hne, hwish, hmodels, ne_eq, not_true_eq_false, if_false]
      cases sv.Encode (server.translateModels sv.Now models) <;> simp
    · simp only [hget, he, hg, hwish, hmodels, ne_eq, not_true_eq_false, if_false, if_true]
      cases sv.Encode (server.translateModels sv.Now models) <;> simp
  · rw [translateModels_eq]
    simp
  · intro i m hm
    refine ⟨server.translateModel (sv.Now i) m, ?_, rfl, rfl, rfl, rfl, rfl, rfl⟩
    rw [translateModels_getElem?, hm]
    rfl

/-- C4 at a GET request with a bearer token and a backend list of two models. -/
theorem Models_translates_catalogue_witness :
    ∃ resp : server.ModelsResponse,
      server.Event.Encode resp ∈
        (Fixture.server (.error (str "no token")) (.ok (str "backend-token"))
          (.ok [Fixture.model (str "gpt-4o") true, Fixture.model (str "o1") false])).Models
          { Method := str "GET", Authorization := str "Bearer gho_abc" }
      ∧ resp.Models.length
          = [Fixture.model (str "gpt-4o") true, Fixture.model (str "o1") false].length
      ∧ ∀ (i : Nat) (m : api.Model),
          [Fixture.model (str "gpt-4o") true, Fixture.model (str "o1") false][i]? = some m →
          ∃ t : server.Model, resp.Models[i]? = some t
            ∧ t.ID = m.ID ∧ t.Root = m.ID ∧ t.Parent = m.ID
            ∧ t.OwnedBy = m.Vendor ∧ t.Object = m.Object
            ∧ t.Permission.length = 1 :=
  Models_translates_catalogue
    (Fixture.server (.error (str "no token")) (.ok (str "backend-token"))
      (.ok [Fixture.model (str "gpt-4o") true, Fixture.model (str "o1") false]))
    { Method := str "GET", Authorization := str "Bearer gho_abc" }
    (str "gho_abc") (str "backend-token")
    [Fixture.model (str "gpt-4o") true, Fixture.model (str "o1") false]
    rfl (Or.inl (by decide)) rfl rfl

/-- C5, as stated, fails: `Permission` has six allow-flags and the handler sets
three of them. For a backend model whose `ModelPickerEnabled` is true, the
synthesized record has `AllowCreateEngine`, `AllowSampling` and `AllowLogprobs`
true and `AllowSearchIndices`, `AllowView` and `AllowFineTuning` false, so no
four of its allow-flags equal the backend flag. -/
theorem permission_flags_of_enabled_model :
    (server.translateModels (fun _ => 0) [Fixture.model (str "gpt-4o") true]).Models.map
        (fun t => t.Permission.map (fun p =>
          [p.AllowCreateEngine, p.AllowSampling, p.AllowLogprobs,
           p.AllowSearchIndices, p.AllowView, p.AllowFineTuning]))
      = [[[true, true, true, false, false, false]]]
    ∧ (Fixture.model (str "gpt-4o") true).ModelPickerEnabled = true := by
  decide

/-- C5, amended: for every backend model, the single `Permission` record
synthesized for its translated model has its three allow-flags
`AllowCreateEngine`, `AllowSampling` and `AllowLogprobs` equal to that model's
`ModelPickerEnabled`; its other allow-flags (`AllowSearchIndices`, `AllowView`,
`AllowFineTuning`) are false and its remaining fields are zero values. -/
theorem permission_mirrors_three_flags (now : Nat → Int) (models : List api.Model) :
    (server.translateModels now models).Models.map (fun t => t.Permission)
      = models.map (fun m =>
          [({ CreatedAt := 0, ID := [], Object := [],
              AllowCreateEngine := m.ModelPickerEnabled,
              AllowSampling := m.ModelPickerEnabled,
              AllowLogprobs := m.ModelPickerEnabled,
              AllowSearchIndices := false, AllowView := false, AllowFineTuning := false,
              Organization := [], Group := none, IsBlocking := false }
            : server.Permission)]) := by
  rw [translateModels_eq, List.map_map]
  apply List.ext_getElem?
  intro i
  simp only [List.getElem?_map, List.getElem?_enum]
  cases models[i]? <;> rfl

/-- C8. A request whose method is not GET is answered with HTTP 405 and a JSON
error body, and nothing else happens (no collaborator is called). On a GET
request, when `GetToken` is consulted (no bearer token in the header) and
fails, when `TokenWishCache` fails, or when the backend model fetch fails, the
handler answers with HTTP 500 and a JSON error body whose message is the text of
that failure, and the event list ends there: no model list is written. -/
theorem Models_error_mapping {ε : Type} (sv : server.Server ε) (r : server.HttpRequest) :
    (r.Method ≠ str "GET" →
      sv.Models r = [server.Event.jsonError 405 (str "Method not allowed")])
    ∧ (∀ err, r.Method = str "GET" →
        strings.TrimPrefix r.Authorization (str "Bearer ") = [] →
        sv.auth.GetToken = .error err →
        sv.Models r = [server.Event.GetToken, server.Event.jsonError 500 (sv.ErrorText err)])
    ∧ (∀ oauthToken err, r.Method = str "GET" →
        ((strings.TrimPrefix r.Authorization (str "Bearer ") ≠ []
            ∧ oauthToken = strings.TrimPrefix r.Authorization (str "Bearer "))
          ∨ (strings.TrimPrefix r.Authorization (str "Bearer ") = []
            ∧ sv.auth.GetToken = .ok oauthToken)) →
        sv.client.TokenWishCache oauthToken = .error err →
        sv.Models r =
          (if strings.TrimPrefix r.Authorization (str "Bearer ") = []
            then [server.Event.GetToken] else [])
          ++ [server.Event.TokenWishCache oauthToken,
              server.Event.jsonError 500 (sv.ErrorText err)])
    ∧ (∀ oauthToken token err, r.Method = str "GET" →
        ((strings.TrimPrefix r.Authorization (str "Bearer ") ≠ []
            ∧ oauthToken = strings.TrimPrefix r.Authorization (str "Bearer "))
          ∨ (strings.TrimPrefix r.Authorization (str "Bearer ") = []
            ∧ sv.auth.GetToken = .ok oauthToken)) →
        sv.client.TokenWishCache oauthToken = .ok token →
        sv.client.Models token = .error err →
        sv.Models r =
          (if strings.TrimPrefix r.Authorization (str "Bearer ") = []
            then [server.Event.GetToken] else [])
          ++ [server.Event.TokenWishCache oauthToken, server.Event.Models token,
              server.Event.jsonError 500 (sv.ErrorText err)]) := by
  refine ⟨?_, ?_, ?_, ?_⟩
  · intro h
    simp [server.Server.Models, h, server.respJSONError, server.StatusMethodNotAllowed]
  · intro err hget he hg
    simp [server.Server.Models, hget, he, hg, server.respJSONError,
      server.StatusInternalServerError]
  · intro oauthToken err hget hoauth hwish
    rcases hoauth with ⟨hne, rfl⟩ | ⟨he, hg⟩
    · simp [server.Server.Models, hget, hne, hwish, server.respJSONError,
        server.StatusInternalServerError]
    · simp [server.Server.Models, hget, he, hg, hwish, server.respJSONError,
        server.StatusInternalServerError]
  · intro oauthToken token err hget hoauth hwish hmodels
    rcases hoauth with ⟨hne, rfl⟩ | ⟨he, hg⟩
    · simp [server.Server.Models, hget, hne, hwish, hmodels, server.respJSONError,
        server.StatusInternalServerError]
    · simp [server.Server.Models, hget, he, hg, hwish, hmodels, server.respJSONError,
        server.StatusInternalServerError]

/-- C8 at a POST request and at one failure of each collaborator. -/
theorem Models_error_mapping_witness :
    (Fixture.server (.ok (str "gho_x")) (.ok (str "t")) (.ok [])).Models
        { Method := str "POST", Authorization := str "Bearer gho_abc" }
      = [server.Event.jsonError 405 (str "Method not allowed")]
    ∧ (Fixture.server (.error (str "device flow failed")) (.ok (str "t")) (.ok [])).Models
        { Method := str "GET", Authorization := [] }
      = [server.Event.GetToken, server.Event.jsonError 500 (str "device flow failed")]
    ∧ (Fixture.server (.ok (str "gho_x")) (.error (str "token exchange failed")) (.ok [])).Models
        { Method := str "GET", Authorization := str "Bearer gho_abc" }
      = [server.Event.TokenWishCache (str "gho_abc"),
         server.Event.jsonError 500 (str "token exchange failed")]
    ∧ (Fixture.server (.ok (str "gho_x")) (.ok (str "t")) (.error (str "502 Bad Gateway"))).Models
        { Method := str "GET", Authorization := [] }
      = [server.Event.GetToken, server.Event.TokenWishCache (str "gho_x"),
         server.Event.Models (str "t"), server.Event.jsonError 500 (str "502 Bad Gateway")] :=
  ⟨(Models_error_mapping
      (Fixture.server (.ok (str "gho_x")) (.ok (str "t")) (.ok []))
      { Method := str "POST", Authorization := str "Bearer gho_abc" }).1 (by decide),
   (Models_error_mapping
      (Fixture.server (.error (str "device flow failed")) (.ok (str "t")) (.ok []))
      { Method := str "GET", Authorization := [] }).2.1 _ rfl (by decide) rfl,
   (Models_error_mapping
      (Fixture.server (.ok (str "gho_x")) (.error (str "token exchange failed")) (.ok []))
      { Method := str "GET", Authorization := str "Bearer gho_abc" }).2.2.1
      (str "gho_abc") _ rfl (Or.inl (by decide)) rfl,
   (Models_error_mapping
      (Fixture.server (.ok (str "gho_x")) (.ok (str "t")) (.error (str "502 Bad Gateway")))
      { Method := str "GET", Authorization := [] }).2.2.2
      (str "gho_x") (str "t") _ rfl (Or.inr ⟨by decide, rfl⟩) rfl rfl⟩

end GhGpt
